import Mathlib

/-!
Shallow embedding of the racing prototype's two numeric subsystems:
the procedural closed-track geometry pipeline (Track module: centreline
sampling, offset generation and barrier segmentation) and the per-tick
vehicle dynamics controller (carPhysics module).

All machine floats are modelled as exact rationals.  Real-valued JS
primitives that have no exact rational implementation (Math.sqrt,
Math.atan2, Math.sin, Math.cos, Math.exp, Math.pow and quaternion
slerp) are abstracted into an `Oracle` record of rational functions;
theorems that depend on defining properties of those primitives take
the properties as hypotheses at exactly the values where the code uses
them, and witnesses instantiate the oracle with finite lookup tables
that satisfy the hypotheses there.

Unbounded `while` loops are embedded with an explicit fuel parameter:
`none` means the fuel was exhausted before the loop condition became
false, so a loop that terminates within `f` iterations returns `some`
when given fuel `f`, and a loop that never terminates returns `none`
for every fuel.
-/

namespace Racing

/-- Three-dimensional vector over ℚ, mirroring THREE.Vector3. -/
structure Vec3 where
  x : ℚ
  y : ℚ
  z : ℚ
  deriving DecidableEq, Repr

def Vec3.zero : Vec3 := ⟨0, 0, 0⟩

def Vec3.add (a b : Vec3) : Vec3 := ⟨a.x + b.x, a.y + b.y, a.z + b.z⟩

def Vec3.sub (a b : Vec3) : Vec3 := ⟨a.x - b.x, a.y - b.y, a.z - b.z⟩

def Vec3.smul (c : ℚ) (v : Vec3) : Vec3 := ⟨c * v.x, c * v.y, c * v.z⟩

/-- Squared Euclidean length (THREE.Vector3.lengthSq: `x*x + y*y + z*z`). -/
def Vec3.normSq (v : Vec3) : ℚ := v.x * v.x + v.y * v.y + v.z * v.z

/-- Componentwise linear interpolation, THREE.Vector3.lerpVectors:
`v1 + (v2 - v1) * alpha`. -/
def Vec3.lerpVectors (a b : Vec3) (t : ℚ) : Vec3 :=
  ⟨a.x + (b.x - a.x) * t, a.y + (b.y - a.y) * t, a.z + (b.z - a.z) * t⟩

/-- Quaternion record over ℚ, mirroring THREE.Quaternion / Rapier rotation. -/
structure Quat where
  x : ℚ
  y : ℚ
  z : ℚ
  w : ℚ
  deriving DecidableEq, Repr

/-- Rational stand-ins for the JS math primitives used by the source.
`pow001 dt` abstracts `Math.pow(0.001, dt)` and `slerp` abstracts
`THREE.Quaternion.slerp`.  Nothing is assumed about these functions
except the hypotheses stated in individual theorems. -/
structure Oracle where
  sqrt : ℚ → ℚ
  atan2 : ℚ → ℚ → ℚ
  sin : ℚ → ℚ
  cos : ℚ → ℚ
  exp : ℚ → ℚ
  pow001 : ℚ → ℚ
  slerp : Quat → Quat → ℚ → Quat

/-- Predicate: `s` behaves as the real square root at the particular input `v`. -/
def SqrtOK (s : ℚ → ℚ) (v : ℚ) : Prop := 0 ≤ s v ∧ s v * s v = v

instance (s : ℚ → ℚ) (v : ℚ) : Decidable (SqrtOK s v) := by
  unfold SqrtOK
  infer_instance

/-- Distance, THREE.Vector3.distanceTo: square root of the squared componentwise
difference. -/
def Vec3.distanceTo (o : Oracle) (a b : Vec3) : ℚ := o.sqrt (Vec3.normSq (a.sub b))

/-- Normalization, THREE.Vector3.normalize: `divideScalar(length || 1)` — a zero length
falls back to dividing by 1. -/
def Vec3.normalize (o : Oracle) (v : Vec3) : Vec3 :=
  let l := o.sqrt v.normSq
  let d := if l = 0 then 1 else l
  ⟨v.x / d, v.y / d, v.z / d⟩

/-! ### Centreline sampling (generateTrackPoints) -/

/-- Modelled from the spec: `THREE.CatmullRomCurve3.getSpacedPoints(N)` is
library code missing from src/.  Per the spec it evaluates the closed
curve at `N` equally arc-length-spaced parameter values and additionally
produces the duplicate closing point at parameter value 1.0 (which
coincides with parameter value 0.0), i.e. it returns `N + 1` samples at
parameters `i / N`.  The closed centripetal spline evaluation itself is
abstracted as `curve : ℚ → Vec3`. -/
def getSpacedPoints (curve : ℚ → Vec3) (n : ℕ) : List Vec3 :=
  (List.range (n + 1)).map (fun i : ℕ => curve ((i : ℚ) / (n : ℚ)))

/-- Embedding of `generateTrackPoints`: sample the closed curve, then
`pts.slice(0, -1)` drops the duplicate closing point. -/
def generateTrackPoints (curve : ℚ → Vec3) (n : ℕ) : List Vec3 :=
  (getSpacedPoints curve n).dropLast

/-! ### Track offset generation (generateTrackWidth)

Body of the `for` loop of `generateTrackWidth`, split per index.
`prev`/`next` use circular neighbour lookup `(i - 1 + n) % n` and
`(i + 1) % n`; over ℕ the former is written `(i + n - 1) % n`, which
agrees with the JS expression for all `0 ≤ i < n`. -/

/-- Computes `tangent = normalize(next - prev)` at index `i` (circular lookup). -/
def tangentAt (o : Oracle) (points : List Vec3) (i : ℕ) : Vec3 :=
  let n := points.length
  let prev := points.getD ((i + n - 1) % n) Vec3.zero
  let next := points.getD ((i + 1) % n) Vec3.zero
  Vec3.normalize o (next.sub prev)

/-- The vector `(-tangent.z, 0, tangent.x)` before its normalization. -/
def preNormalAt (o : Oracle) (points : List Vec3) (i : ℕ) : Vec3 :=
  let t := tangentAt o points i
  ⟨-t.z, 0, t.x⟩

/-- Computes `normal = normalize((-tangent.z, 0, tangent.x))` at index `i`. -/
def normalAt (o : Oracle) (points : List Vec3) (i : ℕ) : Vec3 :=
  Vec3.normalize o (preNormalAt o points i)

/-- Computes `left[i] = points[i] + normal * (width * 0.5)`. -/
def leftAt (o : Oracle) (points : List Vec3) (width : ℚ) (i : ℕ) : Vec3 :=
  (points.getD i Vec3.zero).add (Vec3.smul (width * (1 / 2)) (normalAt o points i))

/-- Computes `right[i] = points[i] - normal * (width * 0.5)`. -/
def rightAt (o : Oracle) (points : List Vec3) (width : ℚ) (i : ℕ) : Vec3 :=
  (points.getD i Vec3.zero).sub (Vec3.smul (width * (1 / 2)) (normalAt o points i))

/-- Embedding of `generateTrackWidth(points, width)`: the `left` and `right` offset
polylines, one entry per centreline index. -/
def generateTrackWidth (o : Oracle) (points : List Vec3) (width : ℚ) :
    List Vec3 × List Vec3 :=
  ((List.range points.length).map (leftAt o points width),
   (List.range points.length).map (rightAt o points width))

/-! ### Barrier segmentation (generateBarrierSegments) -/

/-- One barrier panel, `{position, angle, length}`. -/
structure BarrierSegment where
  position : Vec3
  angle : ℚ
  length : ℚ
  deriving DecidableEq, Repr

/-- Cumulative arc-length table: `arcLen[0] = 0`,
`arcLen[i+1] = arcLen[i] + polyline[i].distanceTo(polyline[(i+1)%n])`. -/
def buildArcLen (o : Oracle) (polyline : List Vec3) : List ℚ :=
  let n := polyline.length
  (List.range n).foldl
    (fun acc i =>
      let ni := (i + 1) % n
      acc ++ [acc.getLastD 0 +
        (polyline.getD i Vec3.zero).distanceTo o (polyline.getD ni Vec3.zero)])
    [0]

/-- Computes `totalLen = arcLen[n]`, the arc length of the full closed loop. -/
def totalArcLen (o : Oracle) (polyline : List Vec3) : ℚ :=
  (buildArcLen o polyline).getD polyline.length 0

/-- The inner scan `while (idx < n - 1 && arcLen[idx + 1] < target) idx++`.
The extra ℕ fuel argument only bounds the scan; fuel `n` always suffices
because `idx` increases while `idx < n - 1`. -/
def advanceIdx (arcLen : List ℚ) (n : ℕ) (target : ℚ) : ℕ → ℕ → ℕ
  | 0, idx => idx
  | fuel + 1, idx =>
    if idx < n - 1 ∧ arcLen.getD (idx + 1) 0 < target then
      advanceIdx arcLen n target fuel (idx + 1)
    else idx

/-- Linear interpolation of the polyline point at arc distance `d`,
bracketed by vertices `idx` and `(idx + 1) % n`:
`t = (d - arcLen[idx]) / (arcLen[idx+1] - arcLen[idx])` (a zero-length
edge makes the ℚ division return 0 where JS would produce NaN). -/
def interpAt (polyline : List Vec3) (arcLen : List ℚ) (idx : ℕ) (d : ℚ) : Vec3 :=
  let n := polyline.length
  let t := (d - arcLen.getD idx 0) / (arcLen.getD (idx + 1) 0 - arcLen.getD idx 0)
  Vec3.lerpVectors (polyline.getD idx Vec3.zero) (polyline.getD ((idx + 1) % n) Vec3.zero) t

/-- The `while (sampleDist < totalLen)` sampling loop of
`generateBarrierSegments`, with explicit fuel.  Each iteration computes
`nextDist = min(sampleDist + spacing, totalLen)`, interpolates the two
bracketing points, emits a segment when its chord length exceeds `0.01`,
and advances the cursor to `nextDist`; `segIdx` persists across
iterations exactly as the mutable variable does in the source. -/
def barrierLoop (o : Oracle) (polyline : List Vec3) (arcLen : List ℚ)
    (totalLen spacing : ℚ) :
    ℕ → ℚ → ℕ → List BarrierSegment → Option (List BarrierSegment)
  | 0, sampleDist, _, segments =>
    if sampleDist < totalLen then none else some segments
  | fuel + 1, sampleDist, segIdx, segments =>
    if sampleDist < totalLen then
      let n := polyline.length
      let nextDist := min (sampleDist + spacing) totalLen
      let segIdx1 := advanceIdx arcLen n sampleDist n segIdx
      let p0 := interpAt polyline arcLen segIdx1 sampleDist
      let endIdx := advanceIdx arcLen n nextDist n segIdx1
      let p1 := interpAt polyline arcLen endIdx nextDist
      let len := p0.distanceTo o p1
      let segments1 :=
        if len > 1 / 100 then
          segments ++
            [⟨Vec3.smul (1 / 2) (p0.add p1), o.atan2 (p1.x - p0.x) (p1.z - p0.z), len⟩]
        else segments
      barrierLoop o polyline arcLen totalLen spacing fuel nextDist segIdx1 segments1
    else some segments

/-- Embedding of `generateBarrierSegments(polyline, spacing)` with explicit loop fuel. -/
def generateBarrierSegments (o : Oracle) (polyline : List Vec3) (spacing : ℚ)
    (fuel : ℕ) : Option (List BarrierSegment) :=
  let arcLen := buildArcLen o polyline
  let totalLen := arcLen.getD polyline.length 0
  barrierLoop o polyline arcLen totalLen spacing fuel 0 0 []

/-! ### Vehicle dynamics controller (carPhysics useFrame body)

The Rapier rigid body is modelled as a record of its velocity, angular
velocity, rotation and position, together with the body mass used by
`applyImpulse` (the `Car.tsx` RigidBody sets `mass={500}` while the
controller scales its impulses by the exported `CAR_MASS = 80`).
`angvelWrites` instruments the `setAngvel` capability with a call log so
that write-once properties can be stated; it has no effect on the
dynamics. -/

structure Keys where
  w : Bool
  a : Bool
  s : Bool
  d : Bool
  space : Bool
  shift : Bool
  deriving DecidableEq, Repr

structure Body where
  vel : Vec3
  angvel : Vec3
  rot : Quat
  pos : Vec3
  mass : ℚ
  angvelWrites : List Vec3
  deriving DecidableEq, Repr

/-- Rapier `applyImpulse`: adds `impulse / mass` to the linear velocity. -/
def Body.applyImpulse (b : Body) (j : Vec3) : Body :=
  { b with vel := ⟨b.vel.x + j.x / b.mass, b.vel.y + j.y / b.mass, b.vel.z + j.z / b.mass⟩ }

def Body.setLinvel (b : Body) (v : Vec3) : Body := { b with vel := v }

def Body.setAngvel (b : Body) (v : Vec3) : Body :=
  { b with angvel := v, angvelWrites := b.angvelWrites ++ [v] }

def Body.setRotation (b : Body) (q : Quat) : Body := { b with rot := q }

def MAX_SPEED : ℚ := 45
def MAX_REVERSE_SPEED : ℚ := 15
def ACCELERATION : ℚ := 8
def DECELERATION : ℚ := 4
def BRAKE_FORCE : ℚ := 35
def STEERING_SPEED : ℚ := 5
def MAX_STEERING_ANGLE : ℚ := 4 / 5
def BOOST_MULTIPLIER : ℚ := 3 / 2
def CAR_MASS : ℚ := 80

/-- Yaw extraction, `Math.atan2(2*(w*y + x*z), 1 - 2*(y*y + z*z))`. -/
def getYawFromQuaternion (o : Oracle) (q : Quat) : ℚ :=
  o.atan2 (2 * (q.w * q.y + q.x * q.z)) (1 - 2 * (q.y * q.y + q.z * q.z))

/-- Per-tick context: the clamped `dt`, the velocity/rotation snapshot
read at the start of the tick, and the derived yaw basis and speed
decomposition (source lines 99–116). -/
structure TickCtx where
  o : Oracle
  k : Keys
  dt : ℚ
  vel0 : Vec3
  rot0 : Quat
  yaw : ℚ
  forward : Vec3
  right : Vec3
  forwardSpeed : ℚ
  lateralSpeed : ℚ
  speed : ℚ

def mkCtx (o : Oracle) (k : Keys) (delta : ℚ) (car : Body) : TickCtx :=
  let dt := min delta (5 / 100)
  let currentVel := car.vel
  let yaw := getYawFromQuaternion o car.rot
  let forward : Vec3 := ⟨o.sin yaw, 0, o.cos yaw⟩
  let right : Vec3 := ⟨o.cos yaw, 0, -o.sin yaw⟩
  { o := o, k := k, dt := dt, vel0 := currentVel, rot0 := car.rot, yaw := yaw,
    forward := forward, right := right,
    forwardSpeed := currentVel.x * forward.x + currentVel.z * forward.z,
    lateralSpeed := currentVel.x * right.x + currentVel.z * right.z,
    speed := o.sqrt (currentVel.x * currentVel.x + currentVel.z * currentVel.z) }

/-- Steering smoothing: `steering += (target - steering) * (1 - 0.001^dt)`,
with target `+MAX_STEERING_ANGLE` for `d`, `-MAX_STEERING_ANGLE` for `a`
(`d` wins when both are held, as in the source's sequential ifs). -/
def steeringUpdate (c : TickCtx) (steering : ℚ) : ℚ :=
  let targetSteering :=
    if c.k.d then MAX_STEERING_ANGLE else if c.k.a then -MAX_STEERING_ANGLE else 0
  let steerLerp := 1 - c.o.pow001 c.dt
  steering + (targetSteering - steering) * steerLerp

/-- Acceleration / braking / coasting branch (source lines 136–164).
Returns the `acceleration` scalar, the boost amount as written by the
`w`-branch drain (`updateBoost(boostAmount - dt*20)`), and the car after
the coasting branch's direct velocity damping. -/
def longitudinalStage (c : TickCtx) (boostAmount : ℚ) (car : Body) : ℚ × ℚ × Body :=
  if c.k.w then
    let boost := if c.k.shift ∧ boostAmount > 0 then BOOST_MULTIPLIER else 1
    let boost1 := if c.k.shift ∧ boostAmount > 0 then boostAmount - c.dt * 20 else boostAmount
    (if c.forwardSpeed < MAX_SPEED * boost then ACCELERATION * boost else 0, boost1, car)
  else if c.k.s then
    (if c.forwardSpeed > 1 / 2 then -BRAKE_FORCE
     else if c.forwardSpeed > -MAX_REVERSE_SPEED then -(ACCELERATION * (1 / 2)) else 0,
     boostAmount, car)
  else
    let dampFactor := c.o.exp (-(DECELERATION * (15 / 100)) * c.dt)
    (0, boostAmount,
     car.setLinvel ⟨c.vel0.x * dampFactor, c.vel0.y, c.vel0.z * dampFactor⟩)

/-- Impulse application (source lines 166–173): when `|acceleration| > 0.1`,
apply `forward * (acceleration * dt * CAR_MASS)` as an impulse. -/
def accelImpulseStage (c : TickCtx) (acceleration : ℚ) (car : Body) : Body :=
  if |acceleration| > 1 / 10 then
    let forceMag := acceleration * c.dt * CAR_MASS
    car.applyImpulse ⟨c.forward.x * forceMag, 0, c.forward.z * forceMag⟩
  else car

/-- Computes `speedFactor = max(min(speed/15, 1) * max(1 - speed/120, 0.3), 0.15)`. -/
def speedFactorOf (speed : ℚ) : ℚ :=
  max (min (speed / 15) 1 * max (1 - speed / 120) (3 / 10)) (15 / 100)

/-- Steering via angular velocity (source lines 175–194): one `setAngvel`
per tick, on either branch. -/
def steeringStage (c : TickCtx) (currentSteering : ℚ) (car : Body) : Body :=
  if |currentSteering| > 1 / 100 ∧ (|c.speed| > 1 / 10 ∨ c.k.w = true ∨ c.k.s = true) then
    let steerSign : ℚ := if c.forwardSpeed ≥ 0 then 1 else -1
    let speedFactor := speedFactorOf c.speed
    car.setAngvel ⟨0, -currentSteering * STEERING_SPEED * speedFactor * steerSign, 0⟩
  else
    car.setAngvel ⟨0, 0, 0⟩

/-- Lateral grip correction impulse (source lines 196–206). -/
def gripStage (c : TickCtx) (car : Body) : Body :=
  if |c.lateralSpeed| > 2 / 10 then
    let gripStrength : ℚ := if c.k.space then 4 / 10 else 85 / 100
    let correctionForce := -c.lateralSpeed * gripStrength * CAR_MASS * c.dt
    car.applyImpulse ⟨c.right.x * correctionForce, 0, c.right.z * correctionForce⟩
  else car

/-- Handbrake damping (source lines 208–216): `setLinvel` of the tick's
initial velocity snapshot with `x`/`z` scaled by `1 - 1.5*dt` and `y`
unchanged. -/
def handbrakeStage (c : TickCtx) (car : Body) : Body :=
  if c.k.space then
    car.setLinvel ⟨c.vel0.x * (1 - (3 / 2) * c.dt), c.vel0.y, c.vel0.z * (1 - (3 / 2) * c.dt)⟩
  else car

/-- Upright correction (source lines 218–239): slerp the snapshot rotation
toward the pure-yaw quaternion `setFromAxisAngle((0,1,0), yaw) =
(0, sin(yaw/2), 0, cos(yaw/2))` by 0.3 and write it back. -/
def uprightStage (c : TickCtx) (car : Body) : Body :=
  let uprightRot : Quat := ⟨0, c.o.sin (c.yaw / 2), 0, c.o.cos (c.yaw / 2)⟩
  car.setRotation (c.o.slerp c.rot0 uprightRot (3 / 10))

/-- Boost regeneration (source lines 250–253): `if (!keys.shift &&
boostAmount < 100) updateBoost(boostAmount + dt * 5)`; the regen reads
the same tick-start `boostAmount` snapshot the drain did, and its write
(when it fires) is the store's final value for the tick. -/
def boostRegen (c : TickCtx) (boostAmount boost1 : ℚ) : ℚ :=
  if c.k.shift = false ∧ boostAmount < 100 then boostAmount + c.dt * 5 else boost1

structure TickResult where
  car : Body
  steering : ℚ
  boost : ℚ
  speedKmh : ℚ
  telemetryPos : Vec3
  telemetryYaw : ℚ
  deriving Repr

/-- One full `useFrame` physics tick (source lines 96–253), composed of
the stages above in source order.  The cosmetic wheel/chassis animation
and the debug logging touch no physics or telemetry state and are not
modelled.  `delta` is the raw frame delta; the clamp
`dt = min(delta, 0.05)` happens in `mkCtx`. -/
def tick (o : Oracle) (k : Keys) (delta : ℚ) (car : Body) (boostAmount steering : ℚ) :
    TickResult :=
  let c := mkCtx o k delta car
  let steering1 := steeringUpdate c steering
  let acc := longitudinalStage c boostAmount car
  let acceleration := acc.1
  let boost1 := acc.2.1
  let car1 := acc.2.2
  let car2 := accelImpulseStage c acceleration car1
  let car3 := steeringStage c steering1 car2
  let car4 := gripStage c car3
  let car5 := handbrakeStage c car4
  let car6 := uprightStage c car5
  ⟨car6, steering1, boostRegen c boostAmount boost1, |c.forwardSpeed| * (36 / 10),
    car6.pos, getYawFromQuaternion o car6.rot⟩

/-- Signed speed of `v` along a forward vector (the source's
`forwardSpeed` decomposition applied to an arbitrary velocity). -/
def fsAlong (forward : Vec3) (v : Vec3) : ℚ := v.x * forward.x + v.z * forward.z

/-- The mathematical sign function, following the spec's words
`sign(forwardSpeed)`; to be compared against the source's
`forwardSpeed >= 0 ? 1 : -1`. -/
def signQ (q : ℚ) : ℚ := if 0 < q then 1 else if q < 0 then -1 else 0

/-! ### Concrete fixtures for witnesses and counterexamples -/

/-- Concrete 3-4-5 based closed quadrilateral: all square roots taken by
the offset code at index 0 are roots of perfect rational squares. -/
def sqPoints : List Vec3 := [⟨0, 0, 0⟩, ⟨3, 0, 0⟩, ⟨3, 0, 4⟩, ⟨0, 0, 4⟩]

/-- Finite square-root table valid at the values reached by the witnesses. -/
def sqrtTable1 : ℚ → ℚ := fun v =>
  if v = 25 then 5 else if v = 1 then 1 else if v = 100 then 10 else 0

def oracle1 : Oracle :=
  { sqrt := sqrtTable1, atan2 := fun _ _ => 0, sin := fun _ => 0, cos := fun _ => 1,
    exp := fun _ => 1, pow001 := fun _ => 0, slerp := fun q _ _ => q }

/-- Right triangle with legs 4 and 3 (hypotenuse 5): a convex closed
polyline of perimeter 12 on which every chord the barrier sampler takes
with spacing 7 is Pythagorean, so the Euclidean distances are exact
rationals. -/
def triPoints : List Vec3 := [⟨0, 0, 0⟩, ⟨4, 0, 0⟩, ⟨4, 0, 3⟩]

/-- Square-root table valid at every value reached by the barrier
fixtures on `triPoints`: edge chords 16, 9, 25 and corner-crossing
chords 25. -/
def sqrtTable2 : ℚ → ℚ := fun v =>
  if v = 16 then 4 else if v = 9 then 3 else if v = 25 then 5 else 0

def oracle2 : Oracle :=
  { sqrt := sqrtTable2, atan2 := fun _ _ => 0, sin := fun _ => 0, cos := fun _ => 1,
    exp := fun _ => 1, pow001 := fun _ => 0, slerp := fun q _ _ => q }

/-- A concrete closed curve (`curveW 1 = curveW 0`) whose two samples at
parameters 0 and 1/2 are distinct, used to witness the centreline
sampling theorem at `sampleCount = 2`. -/
def curveW : ℚ → Vec3 := fun t =>
  if t = 0 then ⟨0, 0, 0⟩
  else if t = 1 / 2 then ⟨1, 0, 0⟩
  else if t = 1 then ⟨0, 0, 0⟩
  else ⟨t, 0, 7⟩

/-- Concrete oracle for the dynamics fixtures: yaw 0 with `sin 0 = 0`,
`cos 0 = 1` (so `forward = (0,0,1)`, `right = (1,0,0)`), a sqrt table
returning the horizontal speed for the velocities used, a damping value
`exp(...) = 97/100` standing in for `exp(-0.03) ≈ 0.9704`, and a
steering lerp base `0.001^dt = 1/2`. -/
def oracleP : Oracle :=
  { sqrt := fun v => if v = 100 then 10 else if v = 109 then 21 / 2 else 0,
    atan2 := fun _ _ => 0, sin := fun _ => 0, cos := fun _ => 1,
    exp := fun _ => 97 / 100, pow001 := fun _ => 1 / 2, slerp := fun q _ _ => q }

/-- Forward only. -/
def keysW : Keys := ⟨true, false, false, false, false, false⟩

/-- Boost-hold only (no forward). -/
def keysShiftOnly : Keys := ⟨false, false, false, false, false, true⟩

/-- Coasting with the handbrake held. -/
def keysCoastHB : Keys := ⟨false, false, false, false, true, false⟩

/-- Forward plus handbrake. -/
def keysWHB : Keys := ⟨true, false, false, false, true, false⟩

/-- A stationary upright body of Rapier mass 500 (`Car.tsx`). -/
def carStill : Body := ⟨Vec3.zero, Vec3.zero, ⟨0, 0, 0, 1⟩, Vec3.zero, 500, []⟩

/-- Moving straight ahead at 10 along the forward axis. -/
def carMoving : Body := ⟨⟨0, 0, 10⟩, Vec3.zero, ⟨0, 0, 0, 1⟩, Vec3.zero, 500, []⟩

/-- Moving with lateral slide 3, vertical fall 8, forward 10. -/
def carLat : Body := ⟨⟨3, 8, 10⟩, Vec3.zero, ⟨0, 0, 0, 1⟩, Vec3.zero, 500, []⟩

/-! ## Theorems -/

theorem getD_map_range {α : Type} (f : ℕ → α) (d : α) {n i : ℕ} (hi : i < n) :
    ((List.range n).map f).getD i d = f i := by
  rw [List.getD_eq_getElem?_getD, List.getElem?_map, List.getElem?_range hi]
  rfl

theorem normSq_smul (c : ℚ) (v : Vec3) : (Vec3.smul c v).normSq = c * c * v.normSq := by
  simp only [Vec3.smul, Vec3.normSq]
  ring

theorem normSq_normalize (o : Oracle) (v : Vec3)
    (h1 : SqrtOK o.sqrt v.normSq) (h0 : v.normSq ≠ 0) :
    (v.normalize o).normSq = 1 := by
  obtain ⟨hpos, hsq⟩ := h1
  have hl : o.sqrt v.normSq ≠ 0 := by
    intro h
    rw [h] at hsq
    simp at hsq
    exact h0 hsq.symm
  simp only [Vec3.normalize, Vec3.normSq] at *
  rw [if_neg hl]
  field_simp
  linarith [hsq]

theorem left_sub_right (o : Oracle) (points : List Vec3) (width : ℚ) (i : ℕ) :
    (leftAt o points width i).sub (rightAt o points width i) =
      Vec3.smul width (normalAt o points i) := by
  simp only [leftAt, rightAt, Vec3.add, Vec3.sub, Vec3.smul, Vec3.mk.injEq]
  exact ⟨by ring, by ring, by ring⟩

/-- C8: for every centreline index `i` (first and last included, with
neighbours found by circular `mod n` lookup built into `tangentAt`),
the offset points are at distance exactly `width` from each other, and
they are displaced from `centerline[i]` by `±(width/2)` along the local
horizontal normal — i.e. they lie on opposite sides of the centreline.
The square-root oracle is assumed correct at the two values where the
code takes roots, and the tangent chord at `i` is assumed nondegenerate. -/
theorem c8_offset_opposite_width (o : Oracle) (points : List Vec3) (width : ℚ) (i : ℕ)
    (hi : i < points.length)
    (h1 : SqrtOK o.sqrt (preNormalAt o points i).normSq)
    (h0 : (preNormalAt o points i).normSq ≠ 0)
    (h2 : SqrtOK o.sqrt (width * width))
    (hw : 0 ≤ width) :
    ((generateTrackWidth o points width).1.getD i Vec3.zero).distanceTo o
        ((generateTrackWidth o points width).2.getD i Vec3.zero) = width ∧
    ((generateTrackWidth o points width).1.getD i Vec3.zero).sub (points.getD i Vec3.zero) =
        Vec3.smul (width * (1 / 2)) (normalAt o points i) ∧
    ((generateTrackWidth o points width).2.getD i Vec3.zero).sub (points.getD i Vec3.zero) =
        Vec3.smul (-(width * (1 / 2))) (normalAt o points i) := by
  have hL : (generateTrackWidth o points width).1.getD i Vec3.zero = leftAt o points width i :=
    getD_map_range _ _ hi
  have hR : (generateTrackWidth o points width).2.getD i Vec3.zero = rightAt o points width i :=
    getD_map_range _ _ hi
  rw [hL, hR]
  refine ⟨?_, ?_, ?_⟩
  · have hdiff : (leftAt o points width i).sub (rightAt o points width i) =
        Vec3.smul width (normalAt o points i) := left_sub_right o points width i
    have hns : ((leftAt o points width i).sub (rightAt o points width i)).normSq =
        width * width := by
      rw [hdiff, normSq_smul, normalAt, normSq_normalize o _ h1 h0, mul_one]
    unfold Vec3.distanceTo
    rw [hns]
    obtain ⟨hp2, hs2⟩ := h2
    nlinarith [hp2, hs2, sq_nonneg (o.sqrt (width * width) - width)]
  · simp only [leftAt, Vec3.add, Vec3.sub, Vec3.smul, Vec3.mk.injEq]
    exact ⟨by ring, by ring, by ring⟩
  · simp only [rightAt, Vec3.add, Vec3.sub, Vec3.smul, Vec3.mk.injEq]
    exact ⟨by ring, by ring, by ring⟩

/-- Sufficient fuel: the cursor advances from `d` to `min (d + S) L` each
iteration, so `fuel` iterations suffice as soon as `L - d ≤ fuel * S`. -/
theorem barrierLoop_isSome_of (o : Oracle) (polyline : List Vec3) (arcLen : List ℚ)
    (L S : ℚ) (hS : 0 < S) :
    ∀ (fuel : ℕ) (d : ℚ) (i : ℕ) (acc : List BarrierSegment),
      L - d ≤ (fuel : ℚ) * S →
      (barrierLoop o polyline arcLen L S fuel d i acc).isSome = true := by
  intro fuel
  induction fuel with
  | zero =>
    intro d i acc h
    have hd : ¬d < L := by
      push_cast at h
      intro hlt
      linarith
    simp [barrierLoop, hd]
  | succ f ih =>
    intro d i acc h
    rw [barrierLoop]
    by_cases hd : d < L
    · rw [if_pos hd]
      apply ih
      rcases le_or_lt L (d + S) with hc | hc
      · rw [min_eq_right hc]
        have : (0 : ℚ) ≤ (f : ℚ) * S := by positivity
        linarith
      · rw [min_eq_left hc.le]
        push_cast at h
        linarith
    · rw [if_neg hd]
      rfl

/-- Insufficient fuel: while `fuel * S` falls short of the remaining
distance `L - d`, the loop runs out of fuel (it needs one iteration per
`S` of arc length). -/
theorem barrierLoop_none_of (o : Oracle) (polyline : List Vec3) (arcLen : List ℚ)
    (L S : ℚ) (hS : 0 < S) :
    ∀ (fuel : ℕ) (d : ℚ) (i : ℕ) (acc : List BarrierSegment),
      d < L → (fuel : ℚ) * S < L - d →
      barrierLoop o polyline arcLen L S fuel d i acc = none := by
  intro fuel
  induction fuel with
  | zero =>
    intro d i acc hd _
    simp [barrierLoop, hd]
  | succ f ih =>
    intro d i acc hd h
    have hfS : (0 : ℚ) ≤ (f : ℚ) * S := by positivity
    have hdS : d + S < L := by
      push_cast at h
      linarith
    rw [barrierLoop, if_pos hd, min_eq_left hdS.le]
    apply ih
    · exact hdS
    · push_cast at h ⊢
      linarith

/-- Each iteration appends at most one segment. -/
theorem barrierLoop_length_le (o : Oracle) (polyline : List Vec3) (arcLen : List ℚ)
    (L S : ℚ) :
    ∀ (fuel : ℕ) (d : ℚ) (i : ℕ) (acc out : List BarrierSegment),
      barrierLoop o polyline arcLen L S fuel d i acc = some out →
      out.length ≤ acc.length + fuel := by
  intro fuel
  induction fuel with
  | zero =>
    intro d i acc out h
    by_cases hd : d < L
    · simp [barrierLoop, hd] at h
    · simp [barrierLoop, hd] at h
      simp [← h]
  | succ f ih =>
    intro d i acc out h
    by_cases hd : d < L
    · rw [barrierLoop, if_pos hd] at h
      have hle := ih _ _ _ _ h
      split at hle
      · simp only [List.length_append, List.length_singleton] at hle
        omega
      · omega
    · rw [barrierLoop, if_neg hd] at h
      cases h
      omega

/-- Every segment the loop ever emits has chord length above the `0.01`
drop threshold. -/
theorem barrierLoop_min_length (o : Oracle) (polyline : List Vec3) (arcLen : List ℚ)
    (L S : ℚ) :
    ∀ (fuel : ℕ) (d : ℚ) (i : ℕ) (acc out : List BarrierSegment),
      (∀ s ∈ acc, 1 / 100 < s.length) →
      barrierLoop o polyline arcLen L S fuel d i acc = some out →
      ∀ s ∈ out, 1 / 100 < s.length := by
  intro fuel
  induction fuel with
  | zero =>
    intro d i acc out hacc h
    by_cases hd : d < L
    · simp [barrierLoop, hd] at h
    · simp [barrierLoop, hd] at h
      rw [← h]
      exact hacc
  | succ f ih =>
    intro d i acc out hacc h
    by_cases hd : d < L
    · rw [barrierLoop, if_pos hd] at h
      refine ih _ _ _ _ ?_ h
      split
      next hemit =>
        intro s hs
        rcases List.mem_append.mp hs with hmem | hmem
        · exact hacc s hmem
        · rcases List.mem_singleton.mp hmem with rfl
          exact hemit
      next hemit =>
        exact hacc
    · rw [barrierLoop, if_neg hd] at h
      cases h
      exact hacc

/-- With nonpositive spacing the cursor never advances past `totalLen`
(`nextDist = min(sampleDist + spacing, totalLen) ≤ sampleDist`), so the
loop condition stays true and every fuel is exhausted. -/
theorem barrierLoop_none_of_nonpos (o : Oracle) (polyline : List Vec3) (arcLen : List ℚ)
    (L S : ℚ) (hS : S ≤ 0) :
    ∀ (fuel : ℕ) (d : ℚ) (i : ℕ) (acc : List BarrierSegment),
      d < L → barrierLoop o polyline arcLen L S fuel d i acc = none := by
  intro fuel
  induction fuel with
  | zero =>
    intro d i acc hd
    simp [barrierLoop, hd]
  | succ f ih =>
    intro d i acc hd
    have hmin : min (d + S) L < L := lt_of_le_of_lt (min_le_left _ _) (by linarith)
    rw [barrierLoop, if_pos hd]
    exact ih _ _ _ hmin

theorem le_ceil_mul (L S : ℚ) (hS : 0 < S) : L ≤ (Nat.ceil (L / S) : ℚ) * S := by
  rcases le_or_lt L 0 with h0 | h0
  · have : (0 : ℚ) ≤ (Nat.ceil (L / S) : ℚ) * S := by positivity
    linarith
  · have h1 : L / S ≤ (Nat.ceil (L / S) : ℚ) := Nat.le_ceil _
    rw [div_le_iff₀ hS] at h1
    linarith

theorem ceil_pred_mul_lt (L S : ℚ) (hS : 0 < S) (hL : 0 < L) :
    ((Nat.ceil (L / S) - 1 : ℕ) : ℚ) * S < L := by
  have hc1 : 1 ≤ Nat.ceil (L / S) := Nat.one_le_ceil_iff.mpr (div_pos hL hS)
  have h2 : (Nat.ceil (L / S) - 1 : ℕ) < Nat.ceil (L / S) := by omega
  have h3 : ((Nat.ceil (L / S) - 1 : ℕ) : ℚ) < L / S := Nat.lt_ceil.mp h2
  calc ((Nat.ceil (L / S) - 1 : ℕ) : ℚ) * S < (L / S) * S := by
        exact mul_lt_mul_of_pos_right h3 hS
    _ = L := div_mul_cancel₀ L hS.ne.symm

/-- C10: for every polyline and every spacing `S > 0`, the sampling loop
of `generateBarrierSegments` terminates: each iteration advances the
cursor `sampleDist` by `min(S, totalLen - sampleDist)`, so fuel
`⌈totalLen / S⌉` — i.e. at most that many iterations — always suffices. -/
theorem c10_barrier_terminates (o : Oracle) (polyline : List Vec3) (spacing : ℚ)
    (hS : 0 < spacing) :
    (generateBarrierSegments o polyline spacing
        (Nat.ceil (totalArcLen o polyline / spacing))).isSome = true := by
  show (barrierLoop o polyline (buildArcLen o polyline)
      ((buildArcLen o polyline).getD polyline.length 0) spacing
      (Nat.ceil (totalArcLen o polyline / spacing)) 0 0 []).isSome = true
  apply barrierLoop_isSome_of _ _ _ _ _ hS
  have h := le_ceil_mul (totalArcLen o polyline) spacing hS
  have hLdef : totalArcLen o polyline = (buildArcLen o polyline).getD polyline.length 0 := rfl
  rw [← hLdef]
  linarith

theorem c10_barrier_terminates_witness :
    (generateBarrierSegments oracle2 triPoints 7
        (Nat.ceil (totalArcLen oracle2 triPoints / 7))).isSome = true :=
  c10_barrier_terminates oracle2 triPoints 7 (by norm_num)

/-- C1 (code bug): `generateBarrierSegments` performs no validation of its
spacing argument.  For every spacing `≤ 0` on a polyline of positive
total arc length, the sampling loop never terminates — the cursor
`sampleDist` never advances past `totalLen` — so the fuelled embedding
returns `none` for every fuel.  No configuration error is reported to
the caller, contradicting the spec's error-handling design. -/
theorem c1_nonpos_spacing_never_terminates (o : Oracle) (polyline : List Vec3)
    (spacing : ℚ) (hS : spacing ≤ 0) (hL : 0 < totalArcLen o polyline) :
    ∀ fuel : ℕ, generateBarrierSegments o polyline spacing fuel = none := by
  intro fuel
  show barrierLoop o polyline (buildArcLen o polyline)
      ((buildArcLen o polyline).getD polyline.length 0) spacing fuel 0 0 [] = none
  exact barrierLoop_none_of_nonpos o polyline _ _ spacing hS fuel 0 0 [] hL

theorem c1_nonpos_spacing_never_terminates_witness :
    generateBarrierSegments oracle2 triPoints 0 1000 = none :=
  c1_nonpos_spacing_never_terminates oracle2 triPoints 0 (by norm_num)
    (by norm_num [totalArcLen, buildArcLen, List.range_succ, Vec3.distanceTo, Vec3.normSq,
      Vec3.sub, Vec3.zero, oracle2, sqrtTable2, triPoints]) 1000

/-- C2 (amended): for every polyline of positive total arc length `L`
and every spacing `S > 0`, `generateBarrierSegments` performs exactly
`⌈L/S⌉` sampling steps — it succeeds with fuel `⌈L/S⌉` and exhausts any
smaller fuel — and returns at most `⌈L/S⌉` segments, every one of which
has recorded chord length strictly above the `0.01` drop threshold.
(The original claim's count `= ⌈L/S⌉`, its `sum of lengths = L`, and
its `only the final segment may be short` all fail on the code: each
recorded length is the straight chord between interpolated endpoints,
which across a polyline corner is strictly shorter than the arc it
spans, and sub-0.01 chords are dropped — see the counterexample.) -/
theorem c2_barrier_segments_amended (o : Oracle) (polyline : List Vec3) (spacing : ℚ)
    (hS : 0 < spacing) (hL : 0 < totalArcLen o polyline) :
    (generateBarrierSegments o polyline spacing
        (Nat.ceil (totalArcLen o polyline / spacing))).isSome = true ∧
    generateBarrierSegments o polyline spacing
        (Nat.ceil (totalArcLen o polyline / spacing) - 1) = none ∧
    ∀ out, generateBarrierSegments o polyline spacing
        (Nat.ceil (totalArcLen o polyline / spacing)) = some out →
      out.length ≤ Nat.ceil (totalArcLen o polyline / spacing) ∧
      ∀ s ∈ out, 1 / 100 < s.length := by
  have hLdef : totalArcLen o polyline = (buildArcLen o polyline).getD polyline.length 0 := rfl
  refine ⟨?_, ?_, ?_⟩
  · show (barrierLoop o polyline (buildArcLen o polyline)
        ((buildArcLen o polyline).getD polyline.length 0) spacing
        (Nat.ceil (totalArcLen o polyline / spacing)) 0 0 []).isSome = true
    apply barrierLoop_isSome_of _ _ _ _ _ hS
    have h := le_ceil_mul (totalArcLen o polyline) spacing hS
    rw [← hLdef]
    linarith
  · show barrierLoop o polyline (buildArcLen o polyline)
        ((buildArcLen o polyline).getD polyline.length 0) spacing
        (Nat.ceil (totalArcLen o polyline / spacing) - 1) 0 0 [] = none
    apply barrierLoop_none_of _ _ _ _ _ hS
    · rw [← hLdef]
      exact hL
    · have h := ceil_pred_mul_lt (totalArcLen o polyline) spacing hS hL
      rw [← hLdef]
      linarith
  · intro out hout
    constructor
    · have h := barrierLoop_length_le o polyline (buildArcLen o polyline)
        ((buildArcLen o polyline).getD polyline.length 0) spacing
        (Nat.ceil (totalArcLen o polyline / spacing)) 0 0 [] out hout
      simpa using h
    · exact barrierLoop_min_length o polyline (buildArcLen o polyline)
        ((buildArcLen o polyline).getD polyline.length 0) spacing
        (Nat.ceil (totalArcLen o polyline / spacing)) 0 0 [] out (by simp) hout

theorem c2_barrier_segments_amended_witness :
    generateBarrierSegments oracle2 triPoints 7
        (Nat.ceil (totalArcLen oracle2 triPoints / 7) - 1) = none :=
  (c2_barrier_segments_amended oracle2 triPoints 7 (by norm_num)
    (by norm_num [totalArcLen, buildArcLen, List.range_succ, Vec3.distanceTo, Vec3.normSq,
      Vec3.sub, Vec3.zero, oracle2, sqrtTable2, triPoints])).2.1

/-- C2 counterexample: `triPoints` is a convex closed polyline (a right
triangle with legs 4 and 3) of total arc length `L = 12`; with spacing
`S = 7` the code returns `⌈12/7⌉ = 2` segments of length 5 each — the
first chord spans the corner at vertex 1, so the *non-final* segment is
shorter than `S`, and the recorded lengths sum to `10`, which misses
`L = 12` by far more than the `0.01` epsilon.  The square-root oracle is
exact at every distance taken (16, 9, 25 are perfect squares). -/
theorem c2_counterexample :
    totalArcLen oracle2 triPoints = 12 ∧
    Nat.ceil (totalArcLen oracle2 triPoints / 7) = 2 ∧
    generateBarrierSegments oracle2 triPoints 7 2 =
      some [⟨⟨2, 0, 3 / 2⟩, 0, 5⟩, ⟨⟨2, 0, 3 / 2⟩, 0, 5⟩] ∧
    SqrtOK oracle2.sqrt ((triPoints.getD 0 Vec3.zero).sub (triPoints.getD 1 Vec3.zero)).normSq ∧
    SqrtOK oracle2.sqrt ((triPoints.getD 1 Vec3.zero).sub (triPoints.getD 2 Vec3.zero)).normSq ∧
    SqrtOK oracle2.sqrt ((triPoints.getD 2 Vec3.zero).sub (triPoints.getD 0 Vec3.zero)).normSq ∧
    ¬|(5 : ℚ) + 5 - 12| ≤ 1 / 100 ∧
    (5 : ℚ) < 7 := by
  refine ⟨?_, ?_, ?_, ?_, ?_, ?_, by norm_num, by norm_num⟩
  · norm_num [totalArcLen, buildArcLen, List.range_succ, Vec3.distanceTo, Vec3.normSq,
      Vec3.sub, Vec3.zero, oracle2, sqrtTable2, triPoints]
  · have h12 : totalArcLen oracle2 triPoints = 12 := by
      norm_num [totalArcLen, buildArcLen, List.range_succ, Vec3.distanceTo, Vec3.normSq,
        Vec3.sub, Vec3.zero, oracle2, sqrtTable2, triPoints]
    rw [h12, Nat.ceil_eq_iff (by norm_num)]
    norm_num
  · norm_num [generateBarrierSegments, barrierLoop, advanceIdx, interpAt, buildArcLen,
      List.range_succ, Vec3.distanceTo, Vec3.normSq, Vec3.sub, Vec3.add, Vec3.smul,
      Vec3.lerpVectors, Vec3.zero, oracle2, sqrtTable2, triPoints]
  · norm_num [SqrtOK, Vec3.normSq, Vec3.sub, Vec3.zero, oracle2, sqrtTable2, triPoints]
  · norm_num [SqrtOK, Vec3.normSq, Vec3.sub, Vec3.zero, oracle2, sqrtTable2, triPoints]
  · norm_num [SqrtOK, Vec3.normSq, Vec3.sub, Vec3.zero, oracle2, sqrtTable2, triPoints]

theorem generateTrackPoints_eq_map (curve : ℚ → Vec3) (n : ℕ) :
    generateTrackPoints curve n =
      (List.range n).map (fun i : ℕ => curve ((i : ℚ) / (n : ℚ))) := by
  unfold generateTrackPoints getSpacedPoints
  rw [List.range_succ, List.map_append, List.map_singleton, List.dropLast_concat]

/-- C9: for every closed curve (the parameter-1.0 sample coincides with
the parameter-0.0 sample, as the closed spline through any ≥4 control
points guarantees) and every sample count `n ≥ 1`, `generateTrackPoints`
returns exactly `n` points; the library's `n + 1` spaced samples are
exactly those `n` points followed by the duplicate closing point
`curve 0`, so only that duplicate is discarded and the loop closes by
the implicit edge from index `n - 1` back to index 0 (whose point is
`curve 0`); and if the curve does not revisit any sampled parameter in
`[0, 1)` then no two of the returned points coincide. -/
theorem c9_centerline_samples (curve : ℚ → Vec3) (n : ℕ)
    (hn : 1 ≤ n) (hclosed : curve 1 = curve 0) :
    (generateTrackPoints curve n).length = n ∧
    getSpacedPoints curve n = generateTrackPoints curve n ++ [curve 0] ∧
    (generateTrackPoints curve n).head? = some (curve 0) ∧
    ((∀ i < n, ∀ j < n, i ≠ j →
        curve ((i : ℚ) / (n : ℚ)) ≠ curve ((j : ℚ) / (n : ℚ))) →
      (generateTrackPoints curve n).Pairwise (· ≠ ·)) := by
  have hn0 : (n : ℚ) ≠ 0 := by
    exact_mod_cast Nat.one_le_iff_ne_zero.mp hn
  refine ⟨?_, ?_, ?_, ?_⟩
  · rw [generateTrackPoints_eq_map]
    simp
  · unfold getSpacedPoints
    rw [List.range_succ, List.map_append, List.map_singleton, generateTrackPoints_eq_map]
    have : curve ((n : ℚ) / (n : ℚ)) = curve 0 := by
      rw [div_self hn0, hclosed]
    rw [this]
  · rw [generateTrackPoints_eq_map]
    obtain ⟨m, rfl⟩ := Nat.exists_eq_add_of_le hn
    rw [show 1 + m = m + 1 by omega, List.range_succ_eq_map]
    simp
  · intro hinj
    rw [generateTrackPoints_eq_map]
    rw [List.pairwise_map]
    have hlt : (List.range n).Pairwise (· < ·) := List.pairwise_lt_range n
    refine hlt.imp_of_mem ?_
    intro a b ha hb hab
    exact hinj a (List.mem_range.mp ha) b (List.mem_range.mp hb) (Nat.ne_of_lt hab)

theorem c9_centerline_samples_witness :
    (generateTrackPoints curveW 2).length = 2 ∧
    (generateTrackPoints curveW 2).Pairwise (· ≠ ·) := by
  have h := c9_centerline_samples curveW 2 (by norm_num) (by norm_num [curveW])
  refine ⟨h.1, h.2.2.2 ?_⟩
  intro i hi j hj hij
  interval_cases i <;> interval_cases j <;>
    [exact absurd rfl hij; norm_num [curveW, Vec3.mk.injEq];
     norm_num [curveW, Vec3.mk.injEq]; exact absurd rfl hij]

theorem c8_offset_opposite_width_witness :
    ((generateTrackWidth oracle1 sqPoints 10).1.getD 0 Vec3.zero).distanceTo oracle1
        ((generateTrackWidth oracle1 sqPoints 10).2.getD 0 Vec3.zero) = 10 :=
  (c8_offset_opposite_width oracle1 sqPoints 10 0 (by norm_num [sqPoints])
    (by norm_num [SqrtOK, preNormalAt, tangentAt, Vec3.normalize, Vec3.normSq, Vec3.sub,
      Vec3.zero, sqPoints, oracle1, sqrtTable1])
    (by norm_num [preNormalAt, tangentAt, Vec3.normalize, Vec3.normSq, Vec3.sub,
      Vec3.zero, sqPoints, oracle1, sqrtTable1])
    (by norm_num [SqrtOK, oracle1, sqrtTable1])
    (by norm_num)).1

/-- C3: the tick computes with the clamped `dt = min(frameDelta, 0.05)`
(first conjunct, definitional on `mkCtx`), and with forward held the
longitudinal impulse stage changes `forwardSpeed` by at most
`acceleration * 0.05`, where `acceleration` is the scalar the tick
computed (`ACCELERATION * boostFactor` or 0).  Hypotheses: the frame
delta is nonnegative, the Rapier body mass is at least the controller's
`CAR_MASS = 80` (the `Car.tsx` body sets 500), and sin/cos satisfy the
Pythagorean identity at the yaw this tick extracts. -/
theorem c3_dt_clamp_bounds_impulse (o : Oracle) (k : Keys) (delta : ℚ) (car : Body)
    (boostAmount : ℚ)
    (hdelta : 0 ≤ delta) (hmass : CAR_MASS ≤ car.mass)
    (hpy : (mkCtx o k delta car).forward.x * (mkCtx o k delta car).forward.x +
      (mkCtx o k delta car).forward.z * (mkCtx o k delta car).forward.z = 1)
    (hw : k.w = true) :
    (mkCtx o k delta car).dt = min delta (5 / 100) ∧
    |fsAlong (mkCtx o k delta car).forward
        (accelImpulseStage (mkCtx o k delta car)
          (longitudinalStage (mkCtx o k delta car) boostAmount car).1
          ((longitudinalStage (mkCtx o k delta car) boostAmount car).2.2)).vel -
      fsAlong (mkCtx o k delta car).forward
        ((longitudinalStage (mkCtx o k delta car) boostAmount car).2.2).vel| ≤
      (longitudinalStage (mkCtx o k delta car) boostAmount car).1 * (5 / 100) := by
  set c := mkCtx o k delta car with hc
  have hck : c.k = k := rfl
  have hdt_eq : c.dt = min delta (5 / 100) := rfl
  refine ⟨hdt_eq, ?_⟩
  have hdt0 : 0 ≤ c.dt := by
    rw [hdt_eq]
    exact le_min hdelta (by norm_num)
  have hdt1 : c.dt ≤ 5 / 100 := by
    rw [hdt_eq]
    exact min_le_right _ _
  have hM80 : (80 : ℚ) ≤ car.mass := by
    simpa [CAR_MASS] using hmass
  have hM : (0 : ℚ) < car.mass := by linarith
  have hcar1 : (longitudinalStage c boostAmount car).2.2 = car := by
    simp [longitudinalStage, hck, hw]
  have ha : 0 ≤ (longitudinalStage c boostAmount car).1 := by
    simp only [longitudinalStage, hck, hw]
    split_ifs <;> norm_num [ACCELERATION, BOOST_MULTIPLIER]
  set a := (longitudinalStage c boostAmount car).1 with ha_def
  rw [hcar1]
  unfold accelImpulseStage
  split_ifs with himp
  · simp only [Body.applyImpulse, fsAlong]
    have hexp : (car.vel.x + c.forward.x * (a * c.dt * CAR_MASS) / car.mass) * c.forward.x +
        (car.vel.z + c.forward.z * (a * c.dt * CAR_MASS) / car.mass) * c.forward.z -
        (car.vel.x * c.forward.x + car.vel.z * c.forward.z) =
        (a * c.dt * CAR_MASS / car.mass) *
          (c.forward.x * c.forward.x + c.forward.z * c.forward.z) := by
      ring
    rw [hexp, hpy, mul_one]
    have hnum : (0 : ℚ) ≤ a * c.dt * CAR_MASS :=
      mul_nonneg (mul_nonneg ha hdt0) (by norm_num [CAR_MASS])
    rw [abs_of_nonneg (div_nonneg hnum hM.le), div_le_iff₀ hM]
    have h80 : CAR_MASS = (80 : ℚ) := rfl
    rw [h80]
    nlinarith [mul_nonneg ha hdt0, mul_nonneg ha (sub_nonneg.mpr hM80),
      mul_nonneg ha (sub_nonneg.mpr hdt1)]
  · simp only [sub_self, abs_zero]
    exact mul_nonneg ha (by norm_num)

theorem c3_dt_clamp_bounds_impulse_witness :
    (mkCtx oracleP keysW 1 carStill).dt = min 1 (5 / 100) ∧
    |fsAlong (mkCtx oracleP keysW 1 carStill).forward
        (accelImpulseStage (mkCtx oracleP keysW 1 carStill)
          (longitudinalStage (mkCtx oracleP keysW 1 carStill) 50 carStill).1
          ((longitudinalStage (mkCtx oracleP keysW 1 carStill) 50 carStill).2.2)).vel -
      fsAlong (mkCtx oracleP keysW 1 carStill).forward
        ((longitudinalStage (mkCtx oracleP keysW 1 carStill) 50 carStill).2.2).vel| ≤
      (longitudinalStage (mkCtx oracleP keysW 1 carStill) 50 carStill).1 * (5 / 100) :=
  c3_dt_clamp_bounds_impulse oracleP keysW 1 carStill 50 (by norm_num)
    (by norm_num [carStill, CAR_MASS])
    (by norm_num [mkCtx, getYawFromQuaternion, oracleP, carStill])
    rfl

/-- C4 (amended): every tick performs exactly one angular-velocity write:
the tick's log grows by exactly one entry, equal to
`(0, -steering * STEERING_SPEED * speedFactor * steerSign, 0)` when the
smoothed steering magnitude exceeds 0.01 and the vehicle is moving or
throttle/brake is held, and to `(0, 0, 0)` otherwise — where
`steerSign` is `1` when `forwardSpeed ≥ 0` and `-1` otherwise (the
source's `forwardSpeed >= 0 ? 1 : -1`, which differs from the spec's
`sign(forwardSpeed)` at `forwardSpeed = 0`), and `speedFactor` is
clamped to the positive floor `0.15` (second conjunct). -/
theorem c4_angvel_write_once (o : Oracle) (k : Keys) (delta : ℚ) (car : Body)
    (boostAmount steering : ℚ) :
    (tick o k delta car boostAmount steering).car.angvelWrites =
      car.angvelWrites ++
        [if |steeringUpdate (mkCtx o k delta car) steering| > 1 / 100 ∧
            (|(mkCtx o k delta car).speed| > 1 / 10 ∨ k.w = true ∨ k.s = true) then
          (⟨0, -(steeringUpdate (mkCtx o k delta car) steering) * STEERING_SPEED *
            speedFactorOf (mkCtx o k delta car).speed *
            (if (mkCtx o k delta car).forwardSpeed ≥ 0 then 1 else -1), 0⟩ : Vec3)
        else ⟨0, 0, 0⟩] ∧
    (15 : ℚ) / 100 ≤ speedFactorOf (mkCtx o k delta car).speed := by
  constructor
  · have hck : (mkCtx o k delta car).k = k := rfl
    have hhb : ∀ carX, (handbrakeStage (mkCtx o k delta car) carX).angvelWrites =
        carX.angvelWrites := by
      intro carX
      unfold handbrakeStage
      split_ifs <;> rfl
    have hgrip : ∀ carX, (gripStage (mkCtx o k delta car) carX).angvelWrites =
        carX.angvelWrites := by
      intro carX
      unfold gripStage
      split_ifs <;> rfl
    have haccel : ∀ aX carX, (accelImpulseStage (mkCtx o k delta car) aX carX).angvelWrites =
        carX.angvelWrites := by
      intro aX carX
      unfold accelImpulseStage
      split_ifs <;> rfl
    have hlong : ((longitudinalStage (mkCtx o k delta car) boostAmount car).2.2).angvelWrites =
        car.angvelWrites := by
      unfold longitudinalStage
      split_ifs <;> rfl
    have hsteer : ∀ stX carX, (steeringStage (mkCtx o k delta car) stX carX).angvelWrites =
        carX.angvelWrites ++
          [if |stX| > 1 / 100 ∧
              (|(mkCtx o k delta car).speed| > 1 / 10 ∨ k.w = true ∨ k.s = true) then
            (⟨0, -stX * STEERING_SPEED * speedFactorOf (mkCtx o k delta car).speed *
              (if (mkCtx o k delta car).forwardSpeed ≥ 0 then 1 else -1), 0⟩ : Vec3)
          else ⟨0, 0, 0⟩] := by
      intro stX carX
      unfold steeringStage
      rw [hck]
      split_ifs <;> simp [Body.setAngvel]
    show (uprightStage (mkCtx o k delta car)
        (handbrakeStage (mkCtx o k delta car)
          (gripStage (mkCtx o k delta car)
            (steeringStage (mkCtx o k delta car)
              (steeringUpdate (mkCtx o k delta car) steering)
              (accelImpulseStage (mkCtx o k delta car)
                (longitudinalStage (mkCtx o k delta car) boostAmount car).1
                (longitudinalStage (mkCtx o k delta car) boostAmount car).2.2))))).angvelWrites =
      _
    show (handbrakeStage (mkCtx o k delta car)
        (gripStage (mkCtx o k delta car)
          (steeringStage (mkCtx o k delta car)
            (steeringUpdate (mkCtx o k delta car) steering)
            (accelImpulseStage (mkCtx o k delta car)
              (longitudinalStage (mkCtx o k delta car) boostAmount car).1
              (longitudinalStage (mkCtx o k delta car) boostAmount car).2.2)))).angvelWrites =
      _
    rw [hhb, hgrip, hsteer, haccel, hlong]
  · exact le_max_right _ _

/-- C4 counterexample: at a standstill (`forwardSpeed = 0`) with forward
held and smoothed steering `1/4`, the tick writes angular velocity
`(0, -3/16, 0)` — obtained with the source's `steerSign = 1` for
`forwardSpeed ≥ 0` — whereas the claim's formula with the mathematical
`sign(forwardSpeed) = sign 0 = 0` evaluates to the zero vector. -/
theorem c4_counterexample :
    (tick oracleP keysW (1 / 20) carStill 50 (1 / 2)).car.angvelWrites =
      [⟨0, -(3 / 16), 0⟩] ∧
    signQ (mkCtx oracleP keysW (1 / 20) carStill).forwardSpeed = 0 ∧
    -(steeringUpdate (mkCtx oracleP keysW (1 / 20) carStill) (1 / 2)) * STEERING_SPEED *
        speedFactorOf (mkCtx oracleP keysW (1 / 20) carStill).speed *
        signQ (mkCtx oracleP keysW (1 / 20) carStill).forwardSpeed = 0 ∧
    ((0 : ℚ) ≠ -(3 / 16)) := by
  refine ⟨?_, ?_, ?_, by norm_num⟩
  · have habs : (1 : ℚ) / 100 < |(1 : ℚ) / 4| := by
      rw [abs_of_pos] <;> norm_num
    norm_num [tick, mkCtx, getYawFromQuaternion, steeringUpdate, longitudinalStage,
      accelImpulseStage, steeringStage, gripStage, handbrakeStage, uprightStage,
      boostRegen, speedFactorOf, Body.applyImpulse, Body.setLinvel, Body.setAngvel,
      Body.setRotation, oracleP, keysW, carStill, Vec3.zero, STEERING_SPEED,
      MAX_STEERING_ANGLE, ACCELERATION, MAX_SPEED, BOOST_MULTIPLIER, CAR_MASS, habs]
  · norm_num [signQ, mkCtx, getYawFromQuaternion, oracleP, keysW, carStill, Vec3.zero]
  · norm_num [signQ, mkCtx, getYawFromQuaternion, oracleP, keysW, carStill, Vec3.zero]

/-- C5 (amended): the tick's final boost value is: the linear regen
`boostAmount + dt * 5` exactly when boost-hold is inactive and
`boostAmount < 100`; the drain `boostAmount - dt * 20` exactly when
forward and boost-hold are held and `boostAmount > 0`; and unchanged
otherwise — in particular a tick that holds boost-hold without forward
is not boosting yet does not regenerate.  With forward held, the
acceleration scalar is `ACCELERATION * boostFactor` exactly when
`forwardSpeed < MAX_SPEED * boostFactor` (else 0), with
`boostFactor = BOOST_MULTIPLIER` precisely when boost-hold is active and
`boostAmount > 0`; the impulse gate `|acceleration| > 0.1` passes if and
only if that speed test passes. -/
theorem c5_boost_amended (o : Oracle) (k : Keys) (delta : ℚ) (car : Body)
    (boostAmount steering : ℚ) :
    ((tick o k delta car boostAmount steering).boost =
      if k.shift = false ∧ boostAmount < 100 then
        boostAmount + (mkCtx o k delta car).dt * 5
      else if k.w = true ∧ k.shift = true ∧ boostAmount > 0 then
        boostAmount - (mkCtx o k delta car).dt * 20
      else boostAmount) ∧
    (k.w = true →
      (longitudinalStage (mkCtx o k delta car) boostAmount car).1 =
        if (mkCtx o k delta car).forwardSpeed <
            MAX_SPEED * (if k.shift = true ∧ boostAmount > 0 then BOOST_MULTIPLIER else 1) then
          ACCELERATION * (if k.shift = true ∧ boostAmount > 0 then BOOST_MULTIPLIER else 1)
        else 0) ∧
    (k.w = true →
      ((1 / 10 < |(longitudinalStage (mkCtx o k delta car) boostAmount car).1|) ↔
        (mkCtx o k delta car).forwardSpeed <
          MAX_SPEED * (if k.shift = true ∧ boostAmount > 0 then BOOST_MULTIPLIER else 1))) := by
  have hck : (mkCtx o k delta car).k = k := rfl
  have h2 : k.w = true →
      (longitudinalStage (mkCtx o k delta car) boostAmount car).1 =
        if (mkCtx o k delta car).forwardSpeed <
            MAX_SPEED * (if k.shift = true ∧ boostAmount > 0 then BOOST_MULTIPLIER else 1) then
          ACCELERATION * (if k.shift = true ∧ boostAmount > 0 then BOOST_MULTIPLIER else 1)
        else 0 := by
    intro hw
    unfold longitudinalStage
    rw [hck, hw]
    simp
  refine ⟨?_, h2, ?_⟩
  · show boostRegen (mkCtx o k delta car) boostAmount
        (longitudinalStage (mkCtx o k delta car) boostAmount car).2.1 = _
    unfold boostRegen longitudinalStage
    rw [hck]
    split_ifs <;> first | rfl | (exfalso; simp_all)
  · intro hw
    rw [h2 hw]
    have hbf : (1 : ℚ) ≤
        (if k.shift = true ∧ boostAmount > 0 then BOOST_MULTIPLIER else 1) := by
      split_ifs <;> norm_num [BOOST_MULTIPLIER]
    by_cases hcond : (mkCtx o k delta car).forwardSpeed <
        MAX_SPEED * (if k.shift = true ∧ boostAmount > 0 then BOOST_MULTIPLIER else 1)
    · rw [if_pos hcond]
      refine iff_of_true ?_ hcond
      have hacc : ACCELERATION = (8 : ℚ) := rfl
      have h8 : (8 : ℚ) ≤
          ACCELERATION * (if k.shift = true ∧ boostAmount > 0 then BOOST_MULTIPLIER else 1) := by
        nlinarith [hbf]
      rw [abs_of_pos (by linarith)]
      linarith
    · rw [if_neg hcond]
      refine iff_of_false ?_ hcond
      norm_num

theorem c5_boost_amended_witness :
    (1 / 10 < |(longitudinalStage (mkCtx oracleP keysW (1 / 20) carStill) 50 carStill).1|) ↔
      (mkCtx oracleP keysW (1 / 20) carStill).forwardSpeed <
        MAX_SPEED * (if keysW.shift = true ∧ (50 : ℚ) > 0 then BOOST_MULTIPLIER else 1) :=
  (c5_boost_amended oracleP keysW (1 / 20) carStill 50 0).2.2 rfl

/-- C5 counterexample: boost-hold active, forward not held, boost 50
strictly between 0 and 100: the vehicle is not boosting (draining needs
forward held), yet the tick leaves boost unchanged at 50 instead of
regenerating it — the regen condition is `!shift`, not `not boosting`. -/
theorem c5_counterexample :
    keysShiftOnly.w = false ∧ keysShiftOnly.shift = true ∧
    ((0 : ℚ) < 50 ∧ (50 : ℚ) < 100) ∧
    (tick oracleP keysShiftOnly (1 / 20) carStill 50 0).boost = 50 := by
  refine ⟨rfl, rfl, by norm_num, ?_⟩
  norm_num [tick, boostRegen, longitudinalStage, mkCtx, getYawFromQuaternion,
    steeringUpdate, accelImpulseStage, steeringStage, gripStage, handbrakeStage,
    uprightStage, speedFactorOf, Body.applyImpulse, Body.setLinvel, Body.setAngvel,
    Body.setRotation, oracleP, keysShiftOnly, carStill, Vec3.zero]

/-- An impulse directed along a vector orthogonal (in the ground plane)
to `forward` leaves the forward speed unchanged. -/
theorem fsAlong_applyImpulse (f r : Vec3) (b : Body) (cf : ℚ)
    (horth : r.x * f.x + r.z * f.z = 0) :
    fsAlong f (b.applyImpulse ⟨r.x * cf, 0, r.z * cf⟩).vel = fsAlong f b.vel := by
  simp only [Body.applyImpulse, fsAlong]
  have expand : (b.vel.x + r.x * cf / b.mass) * f.x + (b.vel.z + r.z * cf / b.mass) * f.z =
      b.vel.x * f.x + b.vel.z * f.z + (cf / b.mass) * (r.x * f.x + r.z * f.z) := by
    ring
  rw [expand, horth, mul_zero, add_zero]

/-- The tick's `right` and `forward` basis vectors are orthogonal in the
ground plane, with no trigonometric assumption needed. -/
theorem mkCtx_right_orth_forward (o : Oracle) (k : Keys) (delta : ℚ) (car : Body) :
    (mkCtx o k delta car).right.x * (mkCtx o k delta car).forward.x +
      (mkCtx o k delta car).right.z * (mkCtx o k delta car).forward.z = 0 := by
  show o.cos (getYawFromQuaternion o car.rot) * o.sin (getYawFromQuaternion o car.rot) +
      -(o.sin (getYawFromQuaternion o car.rot)) * o.cos (getYawFromQuaternion o car.rot) = 0
  ring

/-- The lateral-grip correction impulse never changes the forward speed. -/
theorem fsAlong_gripStage (o : Oracle) (k : Keys) (delta : ℚ) (car carX : Body) :
    fsAlong (mkCtx o k delta car).forward (gripStage (mkCtx o k delta car) carX).vel =
      fsAlong (mkCtx o k delta car).forward carX.vel := by
  unfold gripStage
  split_ifs with h1 h2
  · exact fsAlong_applyImpulse _ _ _ _ (mkCtx_right_orth_forward o k delta car)
  · exact fsAlong_applyImpulse _ _ _ _ (mkCtx_right_orth_forward o k delta car)
  · rfl

theorem steeringStage_vel (c : TickCtx) (stX : ℚ) (carX : Body) :
    (steeringStage c stX carX).vel = carX.vel := by
  unfold steeringStage
  split_ifs <;> rfl

/-- C6 (amended): on a tick with neither forward nor back held, the final
forward speed is the initial forward speed multiplied by a factor that
is strictly between 0 and 1: the coasting branch's exponential damping
factor `exp(-DECELERATION * 0.15 * dt)` when the handbrake is not held,
and `1 - 1.5 * dt` when it is (the handbrake's `setLinvel` of the scaled
snapshot overwrites the exponential damping).  Hence `|forwardSpeed|`
strictly decreases (when nonzero) and never changes sign. -/
theorem c6_coast_decay (o : Oracle) (k : Keys) (delta : ℚ) (car : Body)
    (boostAmount steering : ℚ)
    (hw : k.w = false) (hs : k.s = false) (hdelta : 0 < delta)
    (he0 : 0 < o.exp (-(DECELERATION * (15 / 100)) * (mkCtx o k delta car).dt))
    (he1 : o.exp (-(DECELERATION * (15 / 100)) * (mkCtx o k delta car).dt) < 1) :
    fsAlong (mkCtx o k delta car).forward
        (tick o k delta car boostAmount steering).car.vel =
      (if k.space = true then 1 - (3 / 2) * (mkCtx o k delta car).dt
       else o.exp (-(DECELERATION * (15 / 100)) * (mkCtx o k delta car).dt)) *
        (mkCtx o k delta car).forwardSpeed ∧
    0 < (if k.space = true then 1 - (3 / 2) * (mkCtx o k delta car).dt
         else o.exp (-(DECELERATION * (15 / 100)) * (mkCtx o k delta car).dt)) ∧
    (if k.space = true then 1 - (3 / 2) * (mkCtx o k delta car).dt
     else o.exp (-(DECELERATION * (15 / 100)) * (mkCtx o k delta car).dt)) < 1 ∧
    ((mkCtx o k delta car).forwardSpeed ≠ 0 →
      |fsAlong (mkCtx o k delta car).forward
          (tick o k delta car boostAmount steering).car.vel| <
        |(mkCtx o k delta car).forwardSpeed|) ∧
    (0 ≤ (mkCtx o k delta car).forwardSpeed →
      0 ≤ fsAlong (mkCtx o k delta car).forward
        (tick o k delta car boostAmount steering).car.vel) ∧
    ((mkCtx o k delta car).forwardSpeed ≤ 0 →
      fsAlong (mkCtx o k delta car).forward
        (tick o k delta car boostAmount steering).car.vel ≤ 0) := by
  set c := mkCtx o k delta car with hc
  have hck : c.k = k := rfl
  have hdt_eq : c.dt = min delta (5 / 100) := rfl
  have hdt0 : 0 < c.dt := by
    rw [hdt_eq]
    exact lt_min hdelta (by norm_num)
  have hdt1 : c.dt ≤ 5 / 100 := by
    rw [hdt_eq]
    exact min_le_right _ _
  have hfpos : 0 < (if k.space = true then 1 - (3 / 2) * c.dt
      else o.exp (-(DECELERATION * (15 / 100)) * c.dt)) := by
    split_ifs
    · linarith
    · exact he0
  have hf1 : (if k.space = true then 1 - (3 / 2) * c.dt
      else o.exp (-(DECELERATION * (15 / 100)) * c.dt)) < 1 := by
    split_ifs
    · linarith
    · exact he1
  have hfs0 : c.forwardSpeed = fsAlong c.forward car.vel := rfl
  have ha0 : (longitudinalStage c boostAmount car).1 = 0 := by
    unfold longitudinalStage
    rw [hck, if_neg (show ¬k.w = true by simp [hw]),
      if_neg (show ¬k.s = true by simp [hs])]
  have hcar1 : (longitudinalStage c boostAmount car).2.2 =
      car.setLinvel ⟨car.vel.x * o.exp (-(DECELERATION * (15 / 100)) * c.dt), car.vel.y,
        car.vel.z * o.exp (-(DECELERATION * (15 / 100)) * c.dt)⟩ := by
    unfold longitudinalStage
    rw [hck, if_neg (show ¬k.w = true by simp [hw]),
      if_neg (show ¬k.s = true by simp [hs])]
    rfl
  have haccel : accelImpulseStage c (longitudinalStage c boostAmount car).1
      ((longitudinalStage c boostAmount car).2.2) =
      (longitudinalStage c boostAmount car).2.2 := by
    rw [ha0]
    unfold accelImpulseStage
    rw [if_neg (by norm_num)]
  have htick : (tick o k delta car boostAmount steering).car =
      uprightStage c (handbrakeStage c (gripStage c (steeringStage c
        (steeringUpdate c steering) (accelImpulseStage c
          (longitudinalStage c boostAmount car).1
          (longitudinalStage c boostAmount car).2.2)))) := rfl
  have hupv : ∀ carX : Body, (uprightStage c carX).vel = carX.vel := fun _ => rfl
  have hmain : fsAlong c.forward (tick o k delta car boostAmount steering).car.vel =
      (if k.space = true then 1 - (3 / 2) * c.dt
       else o.exp (-(DECELERATION * (15 / 100)) * c.dt)) * c.forwardSpeed := by
    rw [htick, hupv]
    by_cases hsp : k.space = true
    · rw [if_pos hsp]
      have hhb : (handbrakeStage c (gripStage c (steeringStage c
          (steeringUpdate c steering) (accelImpulseStage c
            (longitudinalStage c boostAmount car).1
            (longitudinalStage c boostAmount car).2.2)))).vel =
          ⟨c.vel0.x * (1 - (3 / 2) * c.dt), c.vel0.y, c.vel0.z * (1 - (3 / 2) * c.dt)⟩ := by
        unfold handbrakeStage
        rw [hck, if_pos hsp]
        rfl
      rw [hhb]
      show car.vel.x * (1 - 3 / 2 * c.dt) * c.forward.x +
          car.vel.z * (1 - 3 / 2 * c.dt) * c.forward.z = _
      rw [hfs0]
      unfold fsAlong
      ring
    · rw [if_neg hsp]
      have hhb : ∀ carX : Body, (handbrakeStage c carX).vel = carX.vel := by
        intro carX
        unfold handbrakeStage
        rw [hck, if_neg hsp]
      rw [hhb, fsAlong_gripStage, steeringStage_vel, haccel, hcar1]
      show car.vel.x * o.exp (-(DECELERATION * (15 / 100)) * c.dt) * c.forward.x +
          car.vel.z * o.exp (-(DECELERATION * (15 / 100)) * c.dt) * c.forward.z = _
      rw [hfs0]
      unfold fsAlong
      ring
  refine ⟨hmain, hfpos, hf1, ?_, ?_, ?_⟩
  · intro hne
    rw [hmain, abs_mul, abs_of_pos hfpos]
    exact mul_lt_of_lt_one_left (abs_pos.mpr hne) hf1
  · intro h0
    rw [hmain]
    exact mul_nonneg hfpos.le h0
  · intro h0
    rw [hmain]
    exact mul_nonpos_of_nonneg_of_nonpos hfpos.le h0

theorem c6_coast_decay_witness :
    0 < (if keysCoastHB.space = true then
        1 - (3 / 2) * (mkCtx oracleP keysCoastHB (1 / 20) carMoving).dt
      else oracleP.exp (-(DECELERATION * (15 / 100)) *
        (mkCtx oracleP keysCoastHB (1 / 20) carMoving).dt)) ∧
    fsAlong (mkCtx oracleP keysCoastHB (1 / 20) carMoving).forward
        (tick oracleP keysCoastHB (1 / 20) carMoving 50 0).car.vel =
      (if keysCoastHB.space = true then
        1 - (3 / 2) * (mkCtx oracleP keysCoastHB (1 / 20) carMoving).dt
      else oracleP.exp (-(DECELERATION * (15 / 100)) *
        (mkCtx oracleP keysCoastHB (1 / 20) carMoving).dt)) *
        (mkCtx oracleP keysCoastHB (1 / 20) carMoving).forwardSpeed :=
  ⟨(c6_coast_decay oracleP keysCoastHB (1 / 20) carMoving 50 0 rfl rfl (by norm_num)
      (by norm_num [oracleP]) (by norm_num [oracleP])).2.1,
   (c6_coast_decay oracleP keysCoastHB (1 / 20) carMoving 50 0 rfl rfl (by norm_num)
      (by norm_num [oracleP]) (by norm_num [oracleP])).1⟩

/-- C6 counterexample: on a coasting tick with the handbrake held
(`delta = dt = 0.05`, initial forward velocity 10), the final forward
velocity is `10 * (1 - 1.5 * 0.05) = 37/4`, not `10` times the
exponential damping factor (modelled as `exp(-0.03) = 97/100`): the
handbrake overwrite makes the net per-tick scaling non-exponential, so
the claim's "multiplied by an exponential damping factor" fails on such
ticks (the monotone-decrease conclusion itself still holds). -/
theorem c6_counterexample :
    (tick oracleP keysCoastHB (1 / 20) carMoving 50 0).car.vel.z = 37 / 4 ∧
    oracleP.exp (-(DECELERATION * (15 / 100)) *
        (mkCtx oracleP keysCoastHB (1 / 20) carMoving).dt) = 97 / 100 ∧
    (37 / 4 : ℚ) ≠ (97 / 100) * 10 := by
  refine ⟨?_, by norm_num [oracleP], by norm_num⟩
  norm_num [tick, mkCtx, getYawFromQuaternion, steeringUpdate, longitudinalStage,
    accelImpulseStage, steeringStage, gripStage, handbrakeStage, uprightStage,
    boostRegen, speedFactorOf, Body.applyImpulse, Body.setLinvel, Body.setAngvel,
    Body.setRotation, oracleP, keysCoastHB, carMoving, Vec3.zero, DECELERATION]

/-- C7 (amended): while the handbrake is held the tick's final linear
velocity is the tick-start snapshot with the two horizontal components
scaled by `1 - 1.5 * dt` and the vertical component unchanged — the
`setLinvel` computes from the stale snapshot, so it also discards
whatever the coasting damping, acceleration impulse and lateral-grip
impulse did to the velocity this tick, rather than composing with them. -/
theorem c7_handbrake_scales_snapshot (o : Oracle) (k : Keys) (delta : ℚ) (car : Body)
    (boostAmount steering : ℚ) (hsp : k.space = true) :
    (tick o k delta car boostAmount steering).car.vel =
      ⟨car.vel.x * (1 - (3 / 2) * (mkCtx o k delta car).dt), car.vel.y,
       car.vel.z * (1 - (3 / 2) * (mkCtx o k delta car).dt)⟩ := by
  show (uprightStage (mkCtx o k delta car) (handbrakeStage (mkCtx o k delta car) _)).vel = _
  have hupv : ∀ carX : Body, (uprightStage (mkCtx o k delta car) carX).vel = carX.vel :=
    fun _ => rfl
  rw [hupv]
  unfold handbrakeStage
  rw [if_pos (show (mkCtx o k delta car).k.space = true from hsp)]
  rfl

theorem c7_handbrake_scales_snapshot_witness :
    (tick oracleP keysWHB (1 / 20) carLat 50 0).car.vel = ⟨111 / 40, 8, 37 / 4⟩ := by
  rw [c7_handbrake_scales_snapshot oracleP keysWHB (1 / 20) carLat 50 0 rfl]
  norm_num [mkCtx, carLat, Vec3.mk.injEq]

/-- C7 counterexample: with the handbrake held, the vertical velocity
component is left unchanged at 8 (scaling it down would give `8 * 37/40
≠ 8`), refuting "all three components"; and although the lateral-grip
impulse fires (`|lateralSpeed| = 3 > 0.2`), the final horizontal
velocity equals the snapshot times the handbrake factor with no grip
contribution — the handbrake write replaces the grip correction instead
of being applied in addition to it. -/
theorem c7_counterexample :
    (tick oracleP keysWHB (1 / 20) carLat 50 0).car.vel.y = 8 ∧
    (8 : ℚ) * (1 - (3 / 2) * (1 / 20)) ≠ 8 ∧
    (mkCtx oracleP keysWHB (1 / 20) carLat).lateralSpeed = 3 ∧
    (2 : ℚ) / 10 < |(mkCtx oracleP keysWHB (1 / 20) carLat).lateralSpeed| ∧
    (tick oracleP keysWHB (1 / 20) carLat 50 0).car.vel.x = 3 * (1 - (3 / 2) * (1 / 20)) := by
  have hlat : (mkCtx oracleP keysWHB (1 / 20) carLat).lateralSpeed = 3 := by
    norm_num [mkCtx, getYawFromQuaternion, oracleP, keysWHB, carLat]
  have habs3 : (2 : ℚ) / 10 < |(3 : ℚ)| := by
    rw [abs_of_pos] <;> norm_num
  have habs8 : (1 : ℚ) / 10 < |(8 : ℚ)| := by
    rw [abs_of_pos] <;> norm_num
  refine ⟨?_, by norm_num, hlat, by rw [hlat]; exact habs3, ?_⟩ <;>
    norm_num [tick, mkCtx, getYawFromQuaternion, steeringUpdate, longitudinalStage,
      accelImpulseStage, steeringStage, gripStage, handbrakeStage, uprightStage,
      boostRegen, speedFactorOf, Body.applyImpulse, Body.setLinvel, Body.setAngvel,
      Body.setRotation, oracleP, keysWHB, carLat, Vec3.zero, ACCELERATION, MAX_SPEED,
      BOOST_MULTIPLIER, CAR_MASS, habs3, habs8]

end Racing
